import Mathlib

/-!
Verification development for the MaDatabase wrapper (src/src/index.ts).

The `Database` class is embedded shallowly: its registry of models and its
connection flag become an explicit state record, each method becomes a pure
Lean function threading that state, and the Sequelize storage engine is an
external collaborator whose response to the (single) call a method makes is
passed in as an explicit argument.  Every method's observable behaviour is
captured in its result: the outcome (`Except`), the successor state, the list
of engine calls the method performed, and the number of error diagnostics
(`console.error`) it emitted.
-/

namespace MaDatabase

/-- Scalar values stored in records and used in conditions. -/
inductive Scalar where
  | int (n : Int)
  | str (s : String)
  | boolean (b : Bool)
  | null
deriving Repr, DecidableEq

/-- A record is a field-name/value association list (a JS object). -/
abbrev Record := List (String × Scalar)

/-- Semantic column types used by `createTable` (`DataTypes.*` in the source;
only the constructors the wrapper and its callers use are embedded). -/
inductive DataType where
  | integer
  | date
  | string_
  | boolean
  | text
deriving Repr, DecidableEq

/-- A field default: either a literal or `DataTypes.NOW`. -/
inductive DefaultVal where
  | now
  | lit (v : Scalar)
deriving Repr, DecidableEq

/-- One field descriptor of a `ModelAttributes` schema. -/
structure FieldDesc where
  type : DataType
  primaryKey : Bool := false
  autoIncrement : Bool := false
  allowNull : Bool := true
  unique : Bool := false
  defaultValue : Option DefaultVal := none
deriving Repr, DecidableEq

/-- A schema (`ModelAttributes`): ordered field-name/descriptor pairs,
in JS object key order. -/
abbrev Schema := List (String × FieldDesc)

/-- First-match lookup in an association list, the semantics of reading a
property `obj[key]` of a JS object (whose keys are unique). -/
def lookupAssoc {α : Type} : List (String × α) → String → Option α
  | [], _ => none
  | (k, v) :: rest, key => if k = key then some v else lookupAssoc rest key

theorem lookupAssoc_nil {α : Type} (key : String) :
    lookupAssoc ([] : List (String × α)) key = none := rfl

theorem lookupAssoc_cons {α : Type} (k : String) (v : α) (rest : List (String × α))
    (key : String) :
    lookupAssoc ((k, v) :: rest) key =
      if k = key then some v else lookupAssoc rest key := rfl

theorem lookupAssoc_append {α : Type} (l₁ l₂ : List (String × α)) (key : String) :
    lookupAssoc (l₁ ++ l₂) key =
      (lookupAssoc l₁ key).orElse (fun _ => lookupAssoc l₂ key) := by
  induction l₁ with
  | nil => rfl
  | cons hd tl ih =>
    obtain ⟨k, v⟩ := hd
    by_cases hk : k = key
    · simp [lookupAssoc, hk, Option.orElse]
    · simp [lookupAssoc, hk, ih]

/-- The JS object-spread merge `{...base, ...ext}`: keys of `base` keep their
position but an `ext` entry with the same key overrides the value; keys only
in `ext` are appended in `ext` order. -/
def spreadMerge {α : Type} (base ext : List (String × α)) : List (String × α) :=
  base.map (fun p =>
    match lookupAssoc ext p.1 with
    | some v => (p.1, v)
    | none => p)
  ++ ext.filter (fun p => (lookupAssoc base p.1).isNone)

theorem lookupAssoc_map_override {α : Type} (base ext : List (String × α)) (key : String) :
    lookupAssoc (base.map (fun p =>
        match lookupAssoc ext p.1 with
        | some v => (p.1, v)
        | none => p)) key =
      match lookupAssoc base key with
      | some v => some ((lookupAssoc ext key).getD v)
      | none => none := by
  induction base with
  | nil => rfl
  | cons hd tl ih =>
    obtain ⟨k, v⟩ := hd
    by_cases hk : k = key
    · subst hk
      cases hext : lookupAssoc ext k <;> simp [lookupAssoc, hext]
    · cases hext : lookupAssoc ext k <;> simp [lookupAssoc, hext, hk, ih]

theorem lookupAssoc_filter_of_notMem {α : Type} (base ext : List (String × α))
    (key : String) (h : lookupAssoc base key = none) :
    lookupAssoc (ext.filter (fun p => (lookupAssoc base p.1).isNone)) key =
      lookupAssoc ext key := by
  induction ext with
  | nil => rfl
  | cons hd tl ih =>
    obtain ⟨k, v⟩ := hd
    by_cases hk : k = key
    · subst hk
      simp [List.filter, lookupAssoc, h, ih]
    · cases hbase : lookupAssoc base k <;>
        simp [List.filter, lookupAssoc, hbase, hk, ih]

theorem lookupAssoc_filter_of_mem {α : Type} (base ext : List (String × α))
    (key : String) (v : α) (h : lookupAssoc base key = some v) :
    lookupAssoc (ext.filter (fun p => (lookupAssoc base p.1).isNone)) key = none := by
  induction ext with
  | nil => rfl
  | cons hd tl ih =>
    obtain ⟨k, w⟩ := hd
    by_cases hk : k = key
    · subst hk
      simp [List.filter, lookupAssoc, h, ih]
    · cases hbase : lookupAssoc base k <;>
        simp [List.filter, lookupAssoc, hbase, hk, ih]

/-- Spread-merge lookup: the extension wins on a shared key, the base is the
fallback — exactly `(lookupAssoc ext key).orElse (lookupAssoc base key)`. -/
theorem lookupAssoc_spreadMerge {α : Type} (base ext : List (String × α)) (key : String) :
    lookupAssoc (spreadMerge base ext) key =
      (lookupAssoc ext key).orElse (fun _ => lookupAssoc base key) := by
  unfold spreadMerge
  rw [lookupAssoc_append, lookupAssoc_map_override]
  cases hbase : lookupAssoc base key with
  | none =>
    rw [lookupAssoc_filter_of_notMem base ext key hbase]
    cases lookupAssoc ext key <;> rfl
  | some v =>
    rw [lookupAssoc_filter_of_mem base ext key v hbase]
    cases lookupAssoc ext key <;> rfl

/-- The three system-injected fields of `createTable`'s `defaultSchema`:
`id` integer auto-increment primary key, `createdAt` and `updatedAt`
timestamps defaulting to `DataTypes.NOW`. -/
def systemDefaultFields : Schema :=
  [ ("id", { type := .integer, primaryKey := true, autoIncrement := true }),
    ("createdAt", { type := .date, defaultValue := some .now }),
    ("updatedAt", { type := .date, defaultValue := some .now }) ]

/-- The `defaultSchema` object built inside `createTable`:
`{id: ..., createdAt: ..., updatedAt: ..., ...schema}`. -/
def defaultSchemaOf (schema : Schema) : Schema :=
  spreadMerge systemDefaultFields schema

/-- The engine-bound handle `sequelize.define` returns, as far as this layer
observes it: the model name, the storage table name, the attributes, and a
creation serial number standing in for JS object identity. -/
structure TableHandle where
  modelName : String
  storageName : String
  attributes : Schema
  uid : Nat
deriving Repr, DecidableEq

/-- The state of one `Database` instance: the `models` registry in insertion
order, the `isConnected` flag, and the next handle serial number. -/
structure Database where
  models : List (String × TableHandle)
  isConnected : Bool
  nextUid : Nat
deriving Repr, DecidableEq

/-- The state of a freshly constructed `Database`. -/
def Database.init : Database :=
  { models := [], isConnected := false, nextUid := 0 }

/-- Charwise lowercasing, the JS `toLowerCase()` for the ASCII names this
layer deals in. -/
def lowerString (s : String) : String :=
  ⟨s.data.map Char.toLower⟩

/-- `createTable(tableName, schema)`: if the name is already registered,
return the existing handle and leave the state untouched; otherwise define a
model under the lower-cased storage name with the merged schema and store it
under the original name. -/
def createTable (db : Database) (tableName : String) (schema : Schema) :
    TableHandle × Database :=
  match lookupAssoc db.models tableName with
  | some h => (h, db)
  | none =>
    let h : TableHandle :=
      { modelName := tableName
        storageName := lowerString tableName
        attributes := defaultSchemaOf schema
        uid := db.nextUid }
    (h, { db with
            models := db.models ++ [(tableName, h)]
            nextUid := db.nextUid + 1 })

/-- An error raised by the storage engine (its message/value; the façade
only ever forwards it, so it stays abstract). -/
abbrev EngineError := String

/-- An error a façade operation raises to its caller: the table-not-found
`Error` thrown before any engine interaction, or a forwarded engine error. -/
inductive DbError where
  | tableNotRegistered (tableName : String)
  | engine (e : EngineError)
deriving Repr, DecidableEq

/-- One call a façade operation issues to the storage engine, recorded for
the collaborator-stub view of the operations. -/
inductive EngineCall where
  | create (table : String) (data : Record)
  | bulkCreate (table : String) (rows : List Record)
  | findAll (table : String)
  | findOne (table : String)
  | findByPk (table : String) (id : Int)
  | updateRows (table : String) (data : Record)
  | destroy (table : String)
  | countRows (table : String)
  | authenticate
  | closeConn
  | sync
  | rawQuery (sql : String)
deriving Repr, DecidableEq

/-- Everything observable about one façade operation: its outcome, the
successor `Database` state, the engine calls it performed in order, and how
many error diagnostics (`console.error`) it emitted. -/
structure OpResult (α : Type) where
  outcome : Except DbError α
  db : Database
  engineCalls : List EngineCall
  diagnostics : Nat
deriving Repr

/-- `connect()`: authenticate; on success set `isConnected` and return
`true`; on failure report a diagnostic and return `false` without touching
the flag.  Never throws. -/
def connect (db : Database) (auth : Except EngineError Unit) :
    Bool × Database × Nat :=
  match auth with
  | .ok _ => (true, { db with isConnected := true }, 0)
  | .error _ => (false, db, 1)

/-- `close()`: on a successful engine close clear `isConnected`; on failure
report a diagnostic and swallow the error, leaving the state as it was.
Never throws. -/
def close (db : Database) (engineClose : Except EngineError Unit) :
    Database × Nat :=
  match engineClose with
  | .ok _ => ({ db with isConnected := false }, 0)
  | .error _ => (db, 1)

/-- `syncTables(force)`: returns a boolean success signal; a failure is
reported and swallowed. -/
def syncTables (db : Database) (engineSync : Except EngineError Unit) :
    Bool × Database × Nat :=
  match engineSync with
  | .ok _ => (true, db, 0)
  | .error _ => (false, db, 1)

/-- `insert(tableName, data)`: reject an unregistered table before any engine
call, otherwise forward to `model.create` and re-raise its error after one
diagnostic. -/
def insert (db : Database) (tableName : String) (data : Record)
    (engineCreate : Except EngineError Record) : OpResult Record :=
  match lookupAssoc db.models tableName with
  | none => ⟨.error (.tableNotRegistered tableName), db, [], 0⟩
  | some _ =>
    match engineCreate with
    | .ok r => ⟨.ok r, db, [.create tableName data], 0⟩
    | .error e => ⟨.error (.engine e), db, [.create tableName data], 1⟩

/-- `insertMany(tableName, dataArray)`: like `insert`, via `bulkCreate`. -/
def insertMany (db : Database) (tableName : String) (dataArray : List Record)
    (engineBulk : Except EngineError (List Record)) : OpResult (List Record) :=
  match lookupAssoc db.models tableName with
  | none => ⟨.error (.tableNotRegistered tableName), db, [], 0⟩
  | some _ =>
    match engineBulk with
    | .ok rs => ⟨.ok rs, db, [.bulkCreate tableName dataArray], 0⟩
    | .error e => ⟨.error (.engine e), db, [.bulkCreate tableName dataArray], 1⟩

/-- `find(tableName, options)`: registry check, then `model.findAll`. -/
def find (db : Database) (tableName : String)
    (engineFind : Except EngineError (List Record)) : OpResult (List Record) :=
  match lookupAssoc db.models tableName with
  | none => ⟨.error (.tableNotRegistered tableName), db, [], 0⟩
  | some _ =>
    match engineFind with
    | .ok rs => ⟨.ok rs, db, [.findAll tableName], 0⟩
    | .error e => ⟨.error (.engine e), db, [.findAll tableName], 1⟩

/-- `findOne(tableName, options)`: registry check, then `model.findOne`. -/
def findOne (db : Database) (tableName : String)
    (engineFindOne : Except EngineError (Option Record)) :
    OpResult (Option Record) :=
  match lookupAssoc db.models tableName with
  | none => ⟨.error (.tableNotRegistered tableName), db, [], 0⟩
  | some _ =>
    match engineFindOne with
    | .ok r => ⟨.ok r, db, [.findOne tableName], 0⟩
    | .error e => ⟨.error (.engine e), db, [.findOne tableName], 1⟩

/-- `findById(tableName, id)`: registry check, then `model.findByPk`. -/
def findById (db : Database) (tableName : String) (id : Int)
    (engineFindPk : Except EngineError (Option Record)) :
    OpResult (Option Record) :=
  match lookupAssoc db.models tableName with
  | none => ⟨.error (.tableNotRegistered tableName), db, [], 0⟩
  | some _ =>
    match engineFindPk with
    | .ok r => ⟨.ok r, db, [.findByPk tableName id], 0⟩
    | .error e => ⟨.error (.engine e), db, [.findByPk tableName id], 1⟩

/-- `update(tableName, data, where)`: registry check, then `model.update`,
returning the affected-row count. -/
def update (db : Database) (tableName : String) (data : Record)
    (engineUpdate : Except EngineError Nat) : OpResult Nat :=
  match lookupAssoc db.models tableName with
  | none => ⟨.error (.tableNotRegistered tableName), db, [], 0⟩
  | some _ =>
    match engineUpdate with
    | .ok n => ⟨.ok n, db, [.updateRows tableName data], 0⟩
    | .error e => ⟨.error (.engine e), db, [.updateRows tableName data], 1⟩

/-- `delete(tableName, where)`: registry check, then `model.destroy`,
returning the deleted-row count. -/
def deleteRows (db : Database) (tableName : String)
    (engineDestroy : Except EngineError Nat) : OpResult Nat :=
  match lookupAssoc db.models tableName with
  | none => ⟨.error (.tableNotRegistered tableName), db, [], 0⟩
  | some _ =>
    match engineDestroy with
    | .ok n => ⟨.ok n, db, [.destroy tableName], 0⟩
    | .error e => ⟨.error (.engine e), db, [.destroy tableName], 1⟩

/-- `count(tableName, options)`: registry check, then `model.count`. -/
def count (db : Database) (tableName : String)
    (engineCount : Except EngineError Nat) : OpResult Nat :=
  match lookupAssoc db.models tableName with
  | none => ⟨.error (.tableNotRegistered tableName), db, [], 0⟩
  | some _ =>
    match engineCount with
    | .ok n => ⟨.ok n, db, [.countRows tableName], 0⟩
    | .error e => ⟨.error (.engine e), db, [.countRows tableName], 1⟩

/-- `query(sql, options)`: a raw passthrough to the engine with no registry
involvement; an engine error is re-raised after one diagnostic. -/
def query (db : Database) (sql : String)
    (engineQuery : Except EngineError (List Record)) : OpResult (List Record) :=
  match engineQuery with
  | .ok rs => ⟨.ok rs, db, [.rawQuery sql], 0⟩
  | .error e => ⟨.error (.engine e), db, [.rawQuery sql], 1⟩

/-- `getModel(tableName)`: a raw registry read (`this.models[tableName]`). -/
def getModel (db : Database) (tableName : String) : Option TableHandle :=
  lookupAssoc db.models tableName

/-- `getTables()`: the registry's keys in insertion order. -/
def getTables (db : Database) : List String :=
  db.models.map (·.1)

/-- `getTableInfo(tableName)`: `null` for an unknown name, otherwise the name
with the handle's live attributes. -/
def getTableInfo (db : Database) (tableName : String) : Option (String × Schema) :=
  (lookupAssoc db.models tableName).map (fun h => (tableName, h.attributes))

/-- A value carried by a condition: a scalar or a finite sequence of
scalars (the latter feeds `in` and `between`). -/
inductive CondValue where
  | scalar (s : Scalar)
  | seq (vs : List Scalar)
deriving Repr, DecidableEq

/-- An atomic constraint of the Canonical Predicate: one of equals,
not-equals, greater-than, greater-or-equal, less-than, less-or-equal,
pattern-match, membership-in-set, range-between. -/
inductive Atom where
  | equals (field : String) (v : CondValue)
  | notEquals (field : String) (v : CondValue)
  | greaterThan (field : String) (v : CondValue)
  | greaterOrEqual (field : String) (v : CondValue)
  | lessThan (field : String) (v : CondValue)
  | lessOrEqual (field : String) (v : CondValue)
  | patternMatch (field : String) (pat : CondValue) (caseInsensitive : Bool)
  | memberOf (field : String) (vs : List Scalar)
  | rangeBetween (field : String) (lo hi : Scalar)
deriving Repr, DecidableEq

/-- The Canonical Predicate: a conjunction of atomic constraints. -/
abbrev CanonicalPredicate := List Atom

/-- A translation error: malformed Condition Specification, surfaced before
any engine call. -/
inductive TranslationError where
  | unknownOperator (name : String)
  | betweenArity (arity : Nat)
  | inNotSequence
  | badPagination (page pageSize : Int)
deriving Repr, DecidableEq

/-- A Condition Specification in one of the three non-paginated shapes:
exact-match map, text-match, per-field operator map. -/
inductive CondSpec where
  | exactMatch (pairs : List (String × Scalar))
  | textMatch (field : String) (term : String)
  | operatorMap (fields : List (String × List (String × CondValue)))
deriving Repr, DecidableEq

/-- The eight operator kinds of the operator-map condition style. -/
inductive OpKind where
  | gt | gte | lt | lte | ne | like | inOp | between
deriving Repr, DecidableEq

/-- Classify an operator name; `none` marks an unknown operator. -/
def opKind : String → Option OpKind
  | "gt" => some .gt
  | "gte" => some .gte
  | "lt" => some .lt
  | "lte" => some .lte
  | "ne" => some .ne
  | "like" => some .like
  | "in" => some .inOp
  | "between" => some .between
  | _ => none

/-- An operator name is known when it is one of
{gt, gte, lt, lte, ne, like, in, between}. -/
def knownOp (name : String) : Bool :=
  (opKind name).isSome

/-- Modelled from the spec: the per-operator step of the Condition
Translator, which is not under src/ (the repository README documents the
`advancedSearch` operator set; its implementation is absent).  Each
`(operator, value)` pair becomes one atomic constraint; `between` requires
exactly two bounds and `in` a sequence of scalars; an unknown operator name
is a translation error. -/
def translateOp (field : String) (opName : String) (v : CondValue) :
    Except TranslationError Atom :=
  match opKind opName, v with
  | some .gt, w => .ok (.greaterThan field w)
  | some .gte, w => .ok (.greaterOrEqual field w)
  | some .lt, w => .ok (.lessThan field w)
  | some .lte, w => .ok (.lessOrEqual field w)
  | some .ne, w => .ok (.notEquals field w)
  | some .like, w => .ok (.patternMatch field w false)
  | some .inOp, .seq vs => .ok (.memberOf field vs)
  | some .inOp, .scalar _ => .error .inNotSequence
  | some .between, .seq [lo, hi] => .ok (.rangeBetween field lo hi)
  | some .between, .seq vs => .error (.betweenArity vs.length)
  | some .between, .scalar _ => .error (.betweenArity 1)
  | none, _ => .error (.unknownOperator opName)

/-- Modelled from the spec: translate one field's operator map, fail-fast on
the first bad pair. -/
def translateFieldOps (field : String) :
    List (String × CondValue) → Except TranslationError (List Atom)
  | [] => .ok []
  | (opName, v) :: rest => do
    let a ← translateOp field opName v
    let more ← translateFieldOps field rest
    .ok (a :: more)

/-- Modelled from the spec: translate an operator map field by field. -/
def translateFields :
    List (String × List (String × CondValue)) →
      Except TranslationError (List Atom)
  | [] => .ok []
  | (field, ops) :: rest => do
    let atoms ← translateFieldOps field ops
    let more ← translateFields rest
    .ok (atoms ++ more)

/-- Modelled from the spec: the Condition Translator, absent from src/.
An exact-match map becomes a conjunction of equals constraints; a text-match
becomes one case-insensitive pattern-match with the term wrapped as
`%term%`; an operator map is translated pairwise. -/
def translate : CondSpec → Except TranslationError CanonicalPredicate
  | .exactMatch pairs =>
    .ok (pairs.map (fun p => .equals p.1 (.scalar p.2)))
  | .textMatch field term =>
    .ok [.patternMatch field (.scalar (.str ("%" ++ term ++ "%"))) true]
  | .operatorMap fields => translateFields fields

/-- Modelled from the spec: the paginated wrapper delegates the inner
condition and separately yields `(offset, limit) = ((page-1)*pageSize,
pageSize)`; non-positive page or pageSize is a translation error. -/
def translatePaginated (spec : CondSpec) (page pageSize : Int) :
    Except TranslationError (CanonicalPredicate × Int × Int) :=
  if page ≤ 0 ∨ pageSize ≤ 0 then .error (.badPagination page pageSize)
  else do
    let atoms ← translate spec
    .ok (atoms, (page - 1) * pageSize, pageSize)

/-- An operator pair `(opName, value)` the translator accepts: a known
operator, with `between` carrying exactly two bounds and `in` a sequence. -/
def wellFormedOpArg (opName : String) (v : CondValue) : Bool :=
  match opKind opName, v with
  | none, _ => false
  | some .between, .seq vs => vs.length == 2
  | some .between, .scalar _ => false
  | some .inOp, .seq _ => true
  | some .inOp, .scalar _ => false
  | some _, _ => true

/-- All operator names mentioned in an operator map. -/
def opNames (fields : List (String × List (String × CondValue))) : List String :=
  (fields.map (fun p => p.2.map (·.1))).flatten

/-- The Pagination Result envelope `{data, total, page, pages, hasMore}`. -/
structure PaginationResult where
  data : List Record
  total : Nat
  page : Nat
  pages : Nat
  hasMore : Bool
deriving Repr, DecidableEq

/-- Modelled from the spec: `searchPaginated(table, cond, page, pageSize)`,
documented in the repository README but not implemented under src/.  Over
the matching rows it returns the page slice at offset `(page-1)*pageSize`
of length at most `pageSize`, with `total` the match count,
`pages = ceil(total / pageSize)` and `hasMore = page < pages`. -/
def searchPaginated (rows : List Record) (isMatch : Record → Bool)
    (page pageSize : Nat) : PaginationResult :=
  let matching := rows.filter isMatch
  let total := matching.length
  { data := (matching.drop ((page - 1) * pageSize)).take pageSize
    total := total
    page := page
    pages := (total + pageSize - 1) / pageSize
    hasMore := page < (total + pageSize - 1) / pageSize }

theorem lookupAssoc_append_preserve {α : Type} (l₁ l₂ : List (String × α))
    (k : String) (v : α) (h : lookupAssoc l₁ k = some v) :
    lookupAssoc (l₁ ++ l₂) k = some v := by
  rw [lookupAssoc_append, h]; rfl

theorem lookupAssoc_append_single_self {α : Type} (l : List (String × α))
    (k : String) (v : α) (h : lookupAssoc l k = none) :
    lookupAssoc (l ++ [(k, v)]) k = some v := by
  rw [lookupAssoc_append, h]
  simp [lookupAssoc, Option.orElse]

theorem createTable_existing (db : Database) (t : String) (s : Schema)
    (hd : TableHandle) (h : lookupAssoc db.models t = some hd) :
    createTable db t s = (hd, db) := by
  simp [createTable, h]

theorem createTable_fresh (db : Database) (t : String) (s : Schema)
    (h : lookupAssoc db.models t = none) :
    createTable db t s =
      (⟨t, lowerString t, defaultSchemaOf s, db.nextUid⟩,
       { db with
           models := db.models ++ [(t, ⟨t, lowerString t, defaultSchemaOf s, db.nextUid⟩)]
           nextUid := db.nextUid + 1 }) := by
  simp [createTable, h]

/-- C1: registering a table name a second time, with any schema, returns the
exact pair the first registration produced — the same handle and an untouched
state — so the second call's schema has no effect on the registry. -/
theorem createTable_idempotent (db : Database) (t : String) (s₁ s₂ : Schema) :
    createTable (createTable db t s₁).2 t s₂ = createTable db t s₁ := by
  cases h : lookupAssoc db.models t with
  | some hd =>
    rw [createTable_existing db t s₁ hd h]
    exact createTable_existing db t s₂ hd h
  | none =>
    rw [createTable_fresh db t s₁ h]
    exact createTable_existing _ t s₂ _
      (lookupAssoc_append_single_self db.models t _ h)

/-- C2: for a first-time registration, the handle's field schema is the
spread-merge of the three system-default fields with the caller's fields,
and a lookup resolves to the caller's descriptor when the caller declared the
field, falling back to the system default otherwise. -/
theorem createTable_schema_merge (db : Database) (t : String) (s : Schema)
    (hfresh : lookupAssoc db.models t = none) :
    ((createTable db t s).1).attributes = defaultSchemaOf s ∧
    (∀ f, lookupAssoc ((createTable db t s).1).attributes f =
      (lookupAssoc s f).orElse (fun _ => lookupAssoc systemDefaultFields f)) := by
  rw [createTable_fresh db t s hfresh]
  exact ⟨rfl, fun f => lookupAssoc_spreadMerge systemDefaultFields s f⟩

/-- C2 witness: registering `User` with a caller-declared `id : string_`
field yields a schema whose `id` descriptor is the caller's and whose
`createdAt` keeps the system default. -/
theorem createTable_schema_merge_witness :
    lookupAssoc ((createTable Database.init "User"
        [("id", { type := DataType.string_ })]).1).attributes "id" =
      some { type := DataType.string_ } ∧
    lookupAssoc ((createTable Database.init "User"
        [("id", { type := DataType.string_ })]).1).attributes "createdAt" =
      some { type := DataType.date, defaultValue := some DefaultVal.now } := by
  have h := createTable_schema_merge Database.init "User"
    [("id", { type := DataType.string_ })] rfl
  exact ⟨by rw [h.2 "id"]; rfl, by rw [h.2 "createdAt"]; rfl⟩

/-- C8: first-time registration binds the handle to the storage engine under
the lower-cased table name while the registry stores it under the caller's
original, case-preserved name. -/
theorem createTable_storage_name (db : Database) (t : String) (s : Schema)
    (hfresh : lookupAssoc db.models t = none) :
    ((createTable db t s).1).storageName = lowerString t ∧
    ((createTable db t s).1).modelName = t ∧
    lookupAssoc ((createTable db t s).2).models t = some (createTable db t s).1 := by
  rw [createTable_fresh db t s hfresh]
  exact ⟨rfl, rfl, lookupAssoc_append_single_self db.models t _ hfresh⟩

/-- C8 witness: registering `Users` in a fresh database stores the handle
under `Users` with storage name `users`. -/
theorem createTable_storage_name_witness :
    ((createTable Database.init "Users" []).1).storageName = "users" ∧
    ((createTable Database.init "Users" []).1).modelName = "Users" ∧
    lookupAssoc ((createTable Database.init "Users" []).2).models "Users" =
      some (createTable Database.init "Users" []).1 := by
  have h := createTable_storage_name Database.init "Users" [] rfl
  exact ⟨h.1.trans (by decide), h.2.1, h.2.2⟩

/-- C9: a registry entry is stable — once `t` maps to `h`, `getModel` and
`getTableInfo` resolve to that same handle, any further `createTable` (of any
name) preserves the entry, and no other public operation of the class changes
the registry at all. -/
theorem registry_stable (db : Database) (t : String) (h : TableHandle)
    (hreg : lookupAssoc db.models t = some h) :
    getModel db t = some h ∧
    getTableInfo db t = some (t, h.attributes) ∧
    (∀ t' s, lookupAssoc ((createTable db t' s).2).models t = some h) ∧
    (∀ a, ((connect db a).2.1).models = db.models) ∧
    (∀ r, ((close db r).1).models = db.models) ∧
    (∀ r, ((syncTables db r).2.1).models = db.models) ∧
    (∀ t' d r, (insert db t' d r).db = db) ∧
    (∀ t' ds r, (insertMany db t' ds r).db = db) ∧
    (∀ t' r, (find db t' r).db = db) ∧
    (∀ t' r, (findOne db t' r).db = db) ∧
    (∀ t' i r, (findById db t' i r).db = db) ∧
    (∀ t' d r, (update db t' d r).db = db) ∧
    (∀ t' r, (deleteRows db t' r).db = db) ∧
    (∀ t' r, (count db t' r).db = db) ∧
    (∀ sql r, (query db sql r).db = db) := by
  refine ⟨?_, ?_, ?_, ?_, ?_, ?_, ?_, ?_, ?_, ?_, ?_, ?_, ?_, ?_, ?_⟩
  · unfold getModel; rw [hreg]
  · unfold getTableInfo; rw [hreg]; rfl
  · intro t' s
    cases h' : lookupAssoc db.models t' with
    | some hd => rw [createTable_existing db t' s hd h']; exact hreg
    | none =>
      rw [createTable_fresh db t' s h']
      exact lookupAssoc_append_preserve db.models _ t h hreg
  · intro a; cases a <;> rfl
  · intro r; cases r <;> rfl
  · intro r; cases r <;> rfl
  · intro t' d r
    cases h' : lookupAssoc db.models t' <;> cases r <;> simp [insert, h']
  · intro t' ds r
    cases h' : lookupAssoc db.models t' <;> cases r <;> simp [insertMany, h']
  · intro t' r
    cases h' : lookupAssoc db.models t' <;> cases r <;> simp [find, h']
  · intro t' r
    cases h' : lookupAssoc db.models t' <;> cases r <;> simp [findOne, h']
  · intro t' i r
    cases h' : lookupAssoc db.models t' <;> cases r <;> simp [findById, h']
  · intro t' d r
    cases h' : lookupAssoc db.models t' <;> cases r <;> simp [update, h']
  · intro t' r
    cases h' : lookupAssoc db.models t' <;> cases r <;> simp [deleteRows, h']
  · intro t' r
    cases h' : lookupAssoc db.models t' <;> cases r <;> simp [count, h']
  · intro sql r; cases r <;> rfl

/-- C9 witness: in a database holding one registered table `User`, `getModel`
returns its handle and an `insert` against another name leaves the state
untouched. -/
theorem registry_stable_witness :
    getModel (createTable Database.init "User" []).2 "User" =
      some (createTable Database.init "User" []).1 ∧
    (insert (createTable Database.init "User" []).2 "Other" []
        (Except.ok [])).db = (createTable Database.init "User" []).2 := by
  have h := registry_stable (createTable Database.init "User" []).2 "User"
    (createTable Database.init "User" []).1 (by rfl)
  exact ⟨h.1, (h.2.2.2.2.2.2.1) "Other" [] (Except.ok [])⟩

/-- C3: every CRUD/search operation called with a table name that was never
registered yields exactly the table-not-registered error, performs zero
engine calls, leaves the state untouched, and emits no diagnostic. -/
theorem unregistered_table_rejected (db : Database) (t : String)
    (habs : lookupAssoc db.models t = none) :
    (∀ d r, insert db t d r = ⟨.error (.tableNotRegistered t), db, [], 0⟩) ∧
    (∀ ds r, insertMany db t ds r = ⟨.error (.tableNotRegistered t), db, [], 0⟩) ∧
    (∀ r, find db t r = ⟨.error (.tableNotRegistered t), db, [], 0⟩) ∧
    (∀ r, findOne db t r = ⟨.error (.tableNotRegistered t), db, [], 0⟩) ∧
    (∀ i r, findById db t i r = ⟨.error (.tableNotRegistered t), db, [], 0⟩) ∧
    (∀ d r, update db t d r = ⟨.error (.tableNotRegistered t), db, [], 0⟩) ∧
    (∀ r, deleteRows db t r = ⟨.error (.tableNotRegistered t), db, [], 0⟩) ∧
    (∀ r, count db t r = ⟨.error (.tableNotRegistered t), db, [], 0⟩) := by
  refine ⟨?_, ?_, ?_, ?_, ?_, ?_, ?_, ?_⟩
  · intro d r; simp [insert, habs]
  · intro ds r; simp [insertMany, habs]
  · intro r; simp [find, habs]
  · intro r; simp [findOne, habs]
  · intro i r; simp [findById, habs]
  · intro d r; simp [update, habs]
  · intro r; simp [deleteRows, habs]
  · intro r; simp [count, habs]

/-- C3 witness: on a fresh database, `insert` and `update` against the
unregistered name `missing` fail with the table error and record zero engine
calls. -/
theorem unregistered_table_rejected_witness :
    insert Database.init "missing" [] (Except.ok []) =
      ⟨.error (.tableNotRegistered "missing"), Database.init, [], 0⟩ ∧
    update Database.init "missing" [] (Except.ok 1) =
      ⟨.error (.tableNotRegistered "missing"), Database.init, [], 0⟩ := by
  have h := unregistered_table_rejected Database.init "missing" rfl
  exact ⟨h.1 [] (Except.ok []), h.2.2.2.2.2.1 [] (Except.ok 1)⟩

/-- C7: when the engine fails a CRUD operation on a registered table, the
façade re-raises the very same error value after exactly one diagnostic,
made exactly one engine call (no retry), and left the registry and
connection state untouched. -/
theorem engine_error_propagated (db : Database) (t : String) (h : TableHandle)
    (hreg : lookupAssoc db.models t = some h) (e : EngineError) :
    (∀ d, insert db t d (.error e) =
      ⟨.error (.engine e), db, [.create t d], 1⟩) ∧
    (∀ ds, insertMany db t ds (.error e) =
      ⟨.error (.engine e), db, [.bulkCreate t ds], 1⟩) ∧
    (find db t (.error e) = ⟨.error (.engine e), db, [.findAll t], 1⟩) ∧
    (findOne db t (.error e) = ⟨.error (.engine e), db, [.findOne t], 1⟩) ∧
    (∀ i, findById db t i (.error e) =
      ⟨.error (.engine e), db, [.findByPk t i], 1⟩) ∧
    (∀ d, update db t d (.error e) =
      ⟨.error (.engine e), db, [.updateRows t d], 1⟩) ∧
    (deleteRows db t (.error e) = ⟨.error (.engine e), db, [.destroy t], 1⟩) ∧
    (count db t (.error e) = ⟨.error (.engine e), db, [.countRows t], 1⟩) := by
  refine ⟨?_, ?_, ?_, ?_, ?_, ?_, ?_, ?_⟩
  · intro d; simp [insert, hreg]
  · intro ds; simp [insertMany, hreg]
  · simp [find, hreg]
  · simp [findOne, hreg]
  · intro i; simp [findById, hreg]
  · intro d; simp [update, hreg]
  · simp [deleteRows, hreg]
  · simp [count, hreg]

/-- C7 witness: with `User` registered, a failing `insert` re-raises the
engine's error `boom` unchanged after one call and one diagnostic, with the
state identical. -/
theorem engine_error_propagated_witness :
    insert (createTable Database.init "User" []).2 "User" []
        (Except.error "boom") =
      ⟨.error (.engine "boom"), (createTable Database.init "User" []).2,
        [.create "User" []], 1⟩ := by
  have h := engine_error_propagated (createTable Database.init "User" []).2
    "User" (createTable Database.init "User" []).1 (by rfl) "boom"
  exact h.1 []

/-- C6: `connect` is a total boolean-returning operation — on successful
authentication it sets `isConnected` and returns `true`; on failure it
returns `false` after one diagnostic, leaves the state untouched, and in
particular a disconnected database stays disconnected. -/
theorem connect_boolean_result (db : Database) :
    connect db (.ok ()) = (true, { db with isConnected := true }, 0) ∧
    (∀ e : EngineError, connect db (.error e) = (false, db, 1)) ∧
    (∀ e : EngineError, db.isConnected = false →
      ((connect db (.error e)).2.1).isConnected = false) := by
  refine ⟨rfl, fun e => rfl, fun e hd => ?_⟩
  simpa [connect] using hd

/-- C6 witness: on a fresh (disconnected) database a failed authentication
returns `false` and the state remains disconnected, with one diagnostic. -/
theorem connect_boolean_result_witness :
    ((connect Database.init (.error "denied")).2.1).isConnected = false ∧
    connect Database.init (.error "denied") = (false, Database.init, 1) := by
  have h := connect_boolean_result Database.init
  exact ⟨h.2.2 "denied" rfl, h.2.1 "denied"⟩

/-- C10: `close` is total — a successful engine close clears `isConnected`;
a failing close is swallowed after one diagnostic and leaves the state
exactly as it was, so the flag is only ever cleared on success. -/
theorem close_never_throws (db : Database) :
    close db (.ok ()) = ({ db with isConnected := false }, 0) ∧
    (∀ e : EngineError, close db (.error e) = (db, 1)) :=
  ⟨rfl, fun _ => rfl⟩

theorem ceil_div_bounds (total ps : Nat) (hps : 0 < ps) :
    total ≤ ((total + ps - 1) / ps) * ps ∧ ((total + ps - 1) / ps) * ps < total + ps := by
  have hdm := Nat.div_add_mod (total + ps - 1) ps
  have hmod : (total + ps - 1) % ps < ps := Nat.mod_lt _ hps
  have key : ∀ x r : Nat, x + r = total + ps - 1 → r < ps →
      total ≤ x ∧ x < total + ps := by
    intro x r h1 h2; omega
  rw [Nat.mul_comm]
  exact key _ _ hdm hmod

/-- C4: for positive page and pageSize, the Pagination Result reports the
match count as `total`, `pages = ceil(total / pageSize)` (the formula, pinned
by the two ceiling inequalities), `hasMore = page < pages`, and `data` is the
slice of matching rows at offset `(page-1)*pageSize` of length at most
`pageSize`. -/
theorem searchPaginated_spec (rows : List Record) (isMatch : Record → Bool)
    (page pageSize : Nat) (_hp : 0 < page) (hps : 0 < pageSize) :
    (searchPaginated rows isMatch page pageSize).total =
      (rows.filter isMatch).length ∧
    (searchPaginated rows isMatch page pageSize).page = page ∧
    (searchPaginated rows isMatch page pageSize).pages =
      ((searchPaginated rows isMatch page pageSize).total + pageSize - 1) / pageSize ∧
    (searchPaginated rows isMatch page pageSize).total ≤
      (searchPaginated rows isMatch page pageSize).pages * pageSize ∧
    (searchPaginated rows isMatch page pageSize).pages * pageSize <
      (searchPaginated rows isMatch page pageSize).total + pageSize ∧
    (searchPaginated rows isMatch page pageSize).hasMore =
      decide (page < (searchPaginated rows isMatch page pageSize).pages) ∧
    (searchPaginated rows isMatch page pageSize).data =
      ((rows.filter isMatch).drop ((page - 1) * pageSize)).take pageSize ∧
    (searchPaginated rows isMatch page pageSize).data.length ≤ pageSize := by
  have hb := ceil_div_bounds (rows.filter isMatch).length pageSize hps
  refine ⟨rfl, rfl, rfl, hb.1, hb.2, rfl, rfl, ?_⟩
  simp [searchPaginated]

/-- C4 witness: the spec's example — page 2 of size 10 over 25 matching rows
gives 10 rows of data, total 25, 3 pages, and `hasMore = true` (and page 3
gives the last 5 with `hasMore = false`). -/
theorem searchPaginated_spec_witness :
    (searchPaginated (List.replicate 25 ([] : Record)) (fun _ => true) 2 10).total = 25 ∧
    (searchPaginated (List.replicate 25 ([] : Record)) (fun _ => true) 2 10).data.length = 10 ∧
    (searchPaginated (List.replicate 25 ([] : Record)) (fun _ => true) 2 10).pages = 3 ∧
    (searchPaginated (List.replicate 25 ([] : Record)) (fun _ => true) 2 10).hasMore = true ∧
    (searchPaginated (List.replicate 25 ([] : Record)) (fun _ => true) 3 10).data.length = 5 ∧
    (searchPaginated (List.replicate 25 ([] : Record)) (fun _ => true) 3 10).hasMore = false := by
  have h := searchPaginated_spec (List.replicate 25 ([] : Record)) (fun _ => true)
    2 10 (by decide) (by decide)
  refine ⟨h.1.trans (by decide), ?_, ?_, ?_, ?_, ?_⟩ <;> decide

theorem translateOp_isOk (field opName : String) (v : CondValue) :
    (translateOp field opName v).isOk = wellFormedOpArg opName v := by
  unfold translateOp wellFormedOpArg
  cases hk : opKind opName with
  | none => cases v <;> rfl
  | some k =>
    cases k <;> rcases v with s | vs <;> try rfl
    rcases vs with _ | ⟨a, _ | ⟨b, _ | ⟨c, t⟩⟩⟩ <;> simp [Except.isOk, Except.toBool]

theorem translateFieldOps_isOk (field : String) (ops : List (String × CondValue)) :
    (translateFieldOps field ops).isOk
      = ops.all (fun q => wellFormedOpArg q.1 q.2) := by
  induction ops with
  | nil => rfl
  | cons hd tl ih =>
    obtain ⟨op, v⟩ := hd
    cases htr : translateOp field op v with
    | error e =>
      have hw : wellFormedOpArg op v = false := by
        rw [← translateOp_isOk field op v, htr]; rfl
      simp [translateFieldOps, htr, hw, Bind.bind, Except.bind, Except.isOk, Except.toBool]
    | ok a =>
      have hw : wellFormedOpArg op v = true := by
        rw [← translateOp_isOk field op v, htr]; rfl
      cases htl : translateFieldOps field tl with
      | error e2 =>
        rw [htl] at ih
        simp [translateFieldOps, htr, htl, hw, ← ih, Bind.bind, Except.bind, Except.isOk, Except.toBool]
      | ok more =>
        rw [htl] at ih
        simp [translateFieldOps, htr, htl, hw, ← ih, Bind.bind, Except.bind, Except.isOk, Except.toBool]

theorem translateFields_isOk (fields : List (String × List (String × CondValue))) :
    (translateFields fields).isOk
      = fields.all (fun p => p.2.all (fun q => wellFormedOpArg q.1 q.2)) := by
  induction fields with
  | nil => rfl
  | cons hd tl ih =>
    obtain ⟨field, ops⟩ := hd
    cases hops : translateFieldOps field ops with
    | error e =>
      have hw : ops.all (fun q => wellFormedOpArg q.1 q.2) = false := by
        rw [← translateFieldOps_isOk field ops, hops]; rfl
      simp [translateFields, hops, hw, Bind.bind, Except.bind, Except.isOk, Except.toBool]
    | ok atoms =>
      have hw : ops.all (fun q => wellFormedOpArg q.1 q.2) = true := by
        rw [← translateFieldOps_isOk field ops, hops]; rfl
      cases htl : translateFields tl with
      | error e2 =>
        rw [htl] at ih
        simp [translateFields, hops, htl, hw, ← ih, Bind.bind, Except.bind, Except.isOk, Except.toBool]
      | ok more =>
        rw [htl] at ih
        simp [translateFields, hops, htl, hw, ← ih, Bind.bind, Except.bind, Except.isOk, Except.toBool]

theorem wellFormedOpArg_of_unknown (opName : String) (v : CondValue)
    (h : knownOp opName = false) : wellFormedOpArg opName v = false := by
  unfold knownOp at h
  unfold wellFormedOpArg
  cases hk : opKind opName with
  | none => cases v <;> rfl
  | some k => rw [hk] at h; simp at h

theorem all_false_of_mem {α : Type} {l : List α} {p : α → Bool} {x : α}
    (hx : x ∈ l) (hpx : p x = false) : l.all p = false := by
  cases hall : l.all p with
  | false => rfl
  | true => exact absurd (List.all_eq_true.mp hall x hx) (by simp [hpx])

theorem translate_unknown_op (fields : List (String × List (String × CondValue)))
    (o : String) (hmem : o ∈ opNames fields) (hunk : knownOp o = false) :
    (translate (.operatorMap fields)).isOk = false := by
  have hall : fields.all (fun p => p.2.all (fun q => wellFormedOpArg q.1 q.2))
      = false := by
    unfold opNames at hmem
    simp only [List.mem_flatten, List.mem_map] at hmem
    obtain ⟨l, ⟨p, hp, hl⟩, hol⟩ := hmem
    subst hl
    obtain ⟨q, hq, hqo⟩ := List.mem_map.mp hol
    refine all_false_of_mem hp ?_
    refine all_false_of_mem hq ?_
    rw [hqo]
    exact wellFormedOpArg_of_unknown o q.2 hunk
  calc (translate (.operatorMap fields)).isOk
      = (translateFields fields).isOk := rfl
    _ = _ := translateFields_isOk fields
    _ = false := hall

/-- C5 (amended): exact-match and text-match specifications always translate
successfully; an operator map translates successfully exactly when every
operator pair is well-formed (a known operator name, `between` with exactly
two bounds, `in` with a sequence of scalars); and any operator map containing
an operator name outside {gt, gte, lt, lte, ne, like, in, between} fails with
a translation error rather than silently dropping the constraint. -/
theorem translate_totality_amended :
    (∀ pairs, (translate (.exactMatch pairs)).isOk = true) ∧
    (∀ field term, (translate (.textMatch field term)).isOk = true) ∧
    (∀ fields, (translate (.operatorMap fields)).isOk
      = fields.all (fun p => p.2.all (fun q => wellFormedOpArg q.1 q.2))) ∧
    (∀ fields o, o ∈ opNames fields → knownOp o = false →
      (translate (.operatorMap fields)).isOk = false) :=
  ⟨fun _ => rfl, fun _ _ => rfl, fun fields => translateFields_isOk fields,
    translate_unknown_op⟩

/-- C5 witness: a specification using the unknown operator name `matches`
translates to an error, not a silently dropped constraint. -/
theorem translate_totality_amended_witness :
    (translate (.operatorMap
      [("name", [("matches", CondValue.scalar (Scalar.str "x"))])])).isOk = false :=
  translate_totality_amended.2.2.2
    [("name", [("matches", CondValue.scalar (Scalar.str "x"))])] "matches"
    (by decide) (by decide)

/-- C5 counterexample: a specification whose operator names are all
syntactically well-formed (every name is a known operator) on which
translation nevertheless fails — `between` given a single bound is a
translation error, so translation does not succeed for every specification
with well-formed field and operator names. -/
theorem translate_wellformed_names_cx :
    ((opNames [("age", [("between", CondValue.seq [Scalar.int 18])])]).all knownOp
      = true) ∧
    translate (.operatorMap [("age", [("between", CondValue.seq [Scalar.int 18])])])
      = .error (.betweenArity 1) :=
  ⟨by decide, rfl⟩

end MaDatabase
